import Mathlib

/-!
Shallow embedding of the phargo PHP-phar reader (package `phargo`).

Source files embedded: `manifest.go` (getOffset, ParseManifest,
ParseEntryManifest, File.Open), `reader.go` (NewReader), `signature.go`
(GetSignature), `phar.go` (Phar, readerAtAdapter).

Modelling conventions:
* a byte source (`io.ReaderAt` backed by a file) is a `List Nat` of byte
  values; `binary.LittleEndian` decoders reduce each byte modulo 256,
  reflecting the Go `byte` (uint8) domain;
* Go `int64` offsets are `Int`;
* `os.File.ReadAt` semantics: a read either fills its whole buffer
  (no error) or fails (EOF / negative offset). `getOffset` additionally
  needs the partial-fill behaviour, modelled by `goReadAt`, which keeps
  the stale tail of the reused buffer exactly as the Go code does;
* a Go function returning `(T, error)` becomes `Except String T` when it
  cannot panic, and `GoRes T` (which adds a `panic` result for Go runtime
  panics such as out-of-range slice indexing) when it can;
* standard-library pure functions that are not part of this repository
  (gzip / bzip2 decompression, path.Clean, the md5/sha1/sha256/sha512
  digests) are parameters of the embedding, collected in `Env`; all
  theorems hold for every `Env`;
* the loop in `getOffset` is driven by a fuel argument strictly larger
  than the number of iterations possible on a finite source, so the
  embedding is total without changing the behaviour on any input.
-/

set_option maxRecDepth 100000

namespace Phargo

deriving instance DecidableEq for Except

/-- Manifest/entry flag constants from `manifest.go`. -/
def ManifestBitmapDeflate : Nat := 0x00001000

def ManifestBitmapBzip2 : Nat := 0x00002000

def CompressionMask : Nat := 0xF000

def EntryCompressedGzip : Nat := 0x00001000

def EntryCompressedBzip2 : Nat := 0x00002000

/-- Result of a Go function call: a value, an error, or a runtime panic. -/
inductive GoRes (α : Type) where
  | ok (a : α)
  | err (e : String)
  | panic
deriving DecidableEq, Repr

/-- binary.LittleEndian.Uint16 on the first two bytes of the list. -/
def le16 (b : List Nat) : Nat :=
  b.getD 0 0 % 256 + b.getD 1 0 % 256 * 256

/-- binary.LittleEndian.Uint32 on the first four bytes of the list. -/
def le32 (b : List Nat) : Nat :=
  b.getD 0 0 % 256 + b.getD 1 0 % 256 * 256 +
    b.getD 2 0 % 256 * 65536 + b.getD 3 0 % 256 * 16777216

/-- Go `r.ReadAt(buf, off)` with `len(buf) = n` over a file-backed reader,
used where the Go code treats any non-nil error as failure: the read
succeeds iff the whole buffer can be filled (a zero-length read always
succeeds, as `os.File.ReadAt` never enters its read loop). -/
def readAtE (src : List Nat) (n : Nat) (off : Int) : Except String (List Nat) :=
  if n = 0 then .ok []
  else if off < 0 then .error "negative offset"
  else if off + (n : Int) ≤ (src.length : Int) then .ok ((src.drop off.toNat).take n)
  else .error "EOF"

/-- Error component of a Go `ReadAt` with partial-fill semantics. -/
inductive RErr where
  | noErr
  | eof
  | other (e : String)
deriving DecidableEq, Repr

/-- Go `f.ReadAt(buffer, off)` with partial-fill semantics, as needed by
`getOffset`: returns the updated buffer (read bytes followed by the stale
tail of the reused buffer), the byte count read, and the error value. -/
def goReadAt (src buf : List Nat) (off : Int) : List Nat × Nat × RErr :=
  if buf.length = 0 then (buf, 0, .noErr)
  else if off < 0 then (buf, 0, .other "negative offset")
  else if (src.length : Int) - off ≤ 0 then (buf, 0, .eof)
  else
    let k := min buf.length (((src.length : Int) - off).toNat)
    ((src.drop off.toNat).take k ++ buf.drop k, k,
      if k < buf.length then .eof else .noErr)

/-- strings.Index: index of the first occurrence of `pat` in the list
scanned from position `i`, or `none` (Go returns -1). -/
def findSub (pat : List Nat) : Nat → List Nat → Option Nat
  | i, [] => if List.isPrefixOf pat [] then some i else none
  | i, s@(_ :: t) => if List.isPrefixOf pat s then some i else findSub pat (i + 1) t

/-- ASCII bytes of the stub marker string `__HALT_COMPILER(); ?>`. -/
def haltCompiler : List Nat :=
  [95, 95, 72, 65, 76, 84, 95, 67, 79, 77, 80, 73, 76, 69, 82, 40, 41, 59, 32, 63, 62]

/-- Loop body of `getOffset` from `manifest.go`, carrying the mutable
state (`currentPossion`, `buffer`, `before`) explicitly.  The `panic`
result is the Go runtime panic raised by `search[index+len(haltCompiler)+1]`
when that index is out of range. -/
def getOffsetLoop (src hc : List Nat) (bufSize : Nat) :
    Nat → Int → List Nat → List Nat → GoRes Int
  | 0, _, _, _ => .err "out of fuel"
  | fuel + 1, pos, buffer, _before =>
    match goReadAt src buffer pos with
    | (buf2, n, rerr) =>
      match rerr with
      | .other e => .err ("can't find haltCompiler: " ++ e)
      | _ =>
        let search := _before ++ buf2
        match findSub hc 0 search with
        | some index =>
          let offset : Int := pos + (index : Int) - (bufSize : Int) + (hc.length : Int)
          if index + hc.length ≥ search.length then .err "unexpected end of file"
          else
            let nextChar := search.getD (index + hc.length) 0
            if index + hc.length + 1 ≥ search.length then .panic
            else
              let nextNextChar := search.getD (index + hc.length + 1) 0
              let offset := if nextChar = 13 ∧ nextNextChar = 10 then offset + 2 else offset
              let offset := if nextChar = 10 then offset + 1 else offset
              .ok offset
        | none =>
          let pos2 := pos + (n : Int)
          match rerr with
          | .eof => .ok (pos2 + (-1) - (bufSize : Int) + (hc.length : Int))
          | _ => getOffsetLoop src hc bufSize fuel pos2 buf2 buf2

/-- The function `getOffset(f, bufSize, haltCompiler)` from `manifest.go`.
For a positive `bufSize` (the caller `ParseManifest` passes 200) every
non-returning iteration advances the cursor by `bufSize` and every short
read returns, so fuel `src.length + 2` strictly exceeds the number of
iterations any finite source can drive and the out-of-fuel branch is
unreachable. -/
def getOffset (src : List Nat) (bufSize : Nat) (hc : List Nat) : GoRes Int :=
  getOffsetLoop src hc bufSize (src.length + 2) 0
    (List.replicate bufSize 0) (List.replicate bufSize 0)

/-- One step of the reflected CRC-32 table construction
(`hash/crc32.simpleMakeTable` with polynomial 0xEDB88320). -/
def crcIter (t : Nat) : Nat :=
  if t % 2 = 1 then 0xEDB88320 ^^^ (t >>> 1) else t >>> 1

/-- Entry `i` of `crc32.MakeTable(0xedb88320)`. -/
def crc32TableEntry (i : Nat) : Nat :=
  crcIter (crcIter (crcIter (crcIter (crcIter (crcIter (crcIter (crcIter i)))))))

/-- One byte step of `hash/crc32.simpleUpdate`. -/
def crc32Update (crc b : Nat) : Nat :=
  crc32TableEntry ((crc ^^^ b) &&& 0xFF) ^^^ (crc >>> 8)

/-- Go `crc32.New(crc32.MakeTable(0xedb88320))` fed all of `data`, then
`Sum32()`: pre- and post-inverted reflected CRC-32. -/
def crc32 (data : List Nat) : Nat :=
  data.foldl crc32Update 0xFFFFFFFF ^^^ 0xFFFFFFFF

/-- Pure standard-library functions used by the reader but external to
this repository: decompression (`compress/gzip`, `compress/bzip2`, which
can fail on corrupt streams), `path.Clean`, and the four digest
algorithms of `crypto/*`.  Every theorem below holds for every `Env`. -/
structure Env where
  gzipDecode : List Nat → Except String (List Nat)
  bzip2Decode : List Nat → Except String (List Nat)
  pathClean : String → String
  md5 : List Nat → List Nat
  sha1 : List Nat → List Nat
  sha256 : List Nat → List Nat
  sha512 : List Nat → List Nat

/-- A concrete environment (identity stand-ins) used by witnesses. -/
def idEnv : Env where
  gzipDecode := fun b => .ok b
  bzip2Decode := fun b => .ok b
  pathClean := id
  md5 := id
  sha1 := id
  sha256 := id
  sha512 := id

/-- Go `string(bytes)` for a byte slice (one char per byte). -/
def stringOfBytes (l : List Nat) : String :=
  String.mk (l.map Char.ofNat)

/-- The `File` struct of `manifest.go`.  The Go field `metadataOpen`
(the archive reader) is modelled by passing the source to `Open`
explicitly; `Size` is declared in the Go struct but never assigned. -/
structure File where
  Filename : String
  Timestamp : Int
  Size : Int
  Flags : Nat
  SizeUncompressed : Nat
  SizeCompressed : Nat
  CRC : Nat
  MetaSerialized : List Nat
  dataOffset : Int
  dataLen : Nat
deriving DecidableEq, Repr

/-- Bytes delivered by
`io.LimitReader(newReaderFromReaderAtOffset(r, off), len)` when drained
by `io.Copy`/a decompressor: at most `len` bytes starting at `off`,
clamped at end of source without error (EOF ends the copy cleanly);
a negative offset is a read error. -/
def rawSegment (src : List Nat) (off : Int) (len : Nat) : Except String (List Nat) :=
  if off < 0 then .error "negative offset"
  else .ok ((src.drop off.toNat).take len)

/-- Method `File.Open` from `manifest.go`: gzip branch first, then bzip2, else
the raw limited reader.  Failures of the decompressor (header or stream)
surface here as the `Except` error. -/
def Open (env : Env) (src : List Nat) (file : File) : Except String (List Nat) :=
  match rawSegment src file.dataOffset file.dataLen with
  | .error e => .error e
  | .ok raw =>
    if file.Flags &&& EntryCompressedGzip > 0 then env.gzipDecode raw
    else if file.Flags &&& EntryCompressedBzip2 > 0 then env.bzip2Decode raw
    else .ok raw

/-- Function `ParseEntryManifest` from `manifest.go`: reads the 4-byte filename
length, re-reads the 28+filenameSize byte entry record, decodes the six
little-endian uint32 fields, optionally reads the metadata blob, and
derives `dataLen` from the compression bits. -/
def ParseEntryManifest (env : Env) (src : List Nat) (offset : Int) :
    Except String (File × Int) :=
  match readAtE src 4 offset with
  | .error e => .error ("cannot get filename size: " ++ e)
  | .ok b4 =>
    let filenameSize := le32 b4
    match readAtE src (28 + filenameSize) offset with
    | .error e => .error ("cannot get meta size: " ++ e)
    | .ok buff =>
      let offset2 := offset + ((28 + filenameSize : Nat) : Int)
      let name := env.pathClean (stringOfBytes ((buff.drop 4).take filenameSize))
      let eb := buff.drop (4 + filenameSize)
      let sizeUncompressed := le32 (eb.take 4)
      let timestamp := le32 ((eb.drop 4).take 4)
      let sizeCompressed := le32 ((eb.drop 8).take 4)
      let crc := le32 ((eb.drop 12).take 4)
      let flags := le32 ((eb.drop 16).take 4)
      let metaLength := le32 ((eb.drop 20).take 4)
      match (if metaLength > 0 then readAtE src metaLength offset2 else .ok []) with
      | .error e => .error ("cannot get meta length: " ++ e)
      | .ok meta =>
        let f : File :=
          { Filename := name
            Timestamp := (timestamp : Int)
            Size := 0
            Flags := flags
            SizeUncompressed := sizeUncompressed
            SizeCompressed := sizeCompressed
            CRC := crc
            MetaSerialized := meta
            dataOffset := 0
            dataLen := if flags &&& CompressionMask > 0 then sizeCompressed
                       else sizeUncompressed }
        .ok (f, offset2 + (meta.length : Int))

/-- The `Manifest` struct of `manifest.go`. -/
structure Manifest where
  Length : Nat
  EntitiesCount : Nat
  Version : String
  Flags : Nat
  Alias : List Nat
  AliasLength : Nat
  Metadata : List Nat
  IsSigned : Bool
deriving DecidableEq, Repr

/-- Function `ParseManifest` from `manifest.go`, instrumented: the second
component lists the sizes handed to `make([]byte, n)` for every
length-prefixed field (alias, metadata) in order, recorded at the point
the Go code performs the allocation (always before the following
`ReadAt`).  The first component is the parse result itself. -/
def ParseManifestA (src : List Nat) : GoRes (Manifest × Int) × List Nat :=
  match getOffset src 200 haltCompiler with
  | .panic => (.panic, [])
  | .err e => (.err e, [])
  | .ok offset =>
    match readAtE src 18 offset with
    | .error e => (.err ("cannot get initials params: " ++ e), [])
    | .ok fistParams =>
      let offset2 := offset + 18
      let v := le16 ((fistParams.drop 8).take 2)
      let major := ((v <<< 12) % 65536) >>> 12
      let minor := (((v >>> 4) <<< 12) % 65536) >>> 12
      let patch := (((v >>> 8) <<< 12) % 65536) >>> 12
      let flags := le32 ((fistParams.drop 10).take 4)
      let aliasLength := le32 (fistParams.drop 14)
      let m0 : Manifest :=
        { Length := le32 (fistParams.take 4)
          EntitiesCount := le32 ((fistParams.drop 4).take 4)
          Version := toString major ++ "." ++ toString minor ++ "." ++ toString patch
          Flags := flags
          Alias := []
          AliasLength := aliasLength
          Metadata := []
          IsSigned := decide (flags &&& 0x10000 > 0) }
      match readAtE src aliasLength offset2 with
      | .error e => (.err e, [aliasLength])
      | .ok aliasB =>
        let offset3 := offset2 + (aliasLength : Int)
        match readAtE src 4 offset3 with
        | .error e => (.err e, [aliasLength])
        | .ok metaLenB =>
          let offset4 := offset3 + 4
          let metaLength := le32 metaLenB
          if metaLength > 0 then
            match readAtE src metaLength offset4 with
            | .error e => (.err e, [aliasLength, metaLength])
            | .ok md =>
              (.ok ({ m0 with Alias := aliasB, Metadata := md },
                offset4 + (metaLength : Int)), [aliasLength, metaLength])
          else (.ok ({ m0 with Alias := aliasB }, offset4), [aliasLength])

/-- The parse result component of the instrumented `ParseManifestA`. -/
def ParseManifest (src : List Nat) : GoRes (Manifest × Int) :=
  (ParseManifestA src).1

/-- Sentinel error `ErrOpenssl` of `signature.go`. -/
def ErrOpenssl : String := "openssl is disabled in this implementation"

/-- Sentinel error `ErrInvalidSignature` of `signature.go`. -/
def ErrInvalidSignature : String := "invalid signature"

/-- Sentinel error `ErrGBMB` of `signature.go`. -/
def ErrGBMB : String := "can't find GBMB constant at the end"

/-- The `Signature` struct of `signature.go` (`SignatureFlag` is a Nat). -/
structure Signature where
  Signature : Nat
  Hash : List Nat
deriving DecidableEq, Repr

/-- Digest selected by the `switch` of `GetSignature`: the hash function
the chosen `hashCalculator` computes for each digest algorithm id. -/
def hashOf (env : Env) (flag : Nat) : List Nat → List Nat :=
  match flag with
  | 1 => env.md5
  | 2 => env.sha1
  | 3 => env.sha256
  | 4 => env.sha512
  | _ => fun _ => []

/-- Go `io.CopyN(dst, newReaderFromReaderAt(r), n)`: the first `n` bytes of
the source; fails with EOF when fewer are available; a non-positive `n`
copies nothing without error. -/
def copyN (src : List Nat) (n : Int) : Except String (List Nat) :=
  if n ≤ 0 then .ok []
  else if n ≤ (src.length : Int) then .ok (src.take n.toNat)
  else .error "EOF"

/-- Tail of `GetSignature` after the digest `switch`: hash the leading
`size - (8 + len(Hash))` bytes with the selected calculator and compare
with the stored digest (`bytes.Equal`). -/
def digestTail (env : Env) (src : List Nat) (size : Int) (flag : Nat)
    (stored : List Nat) : Option Signature × Option String :=
  match copyN src (size - ((8 + stored.length : Nat) : Int)) with
  | .error e => (none, some e)
  | .ok body =>
    if hashOf env flag body ≠ stored then (none, some ErrInvalidSignature)
    else (some { Signature := flag, Hash := stored }, none)

/-- Function `GetSignature` from `signature.go`: reads the 8-byte trailer
(4-byte little-endian algorithm id, 4-byte `GBMB` magic), then per
algorithm reads the stored digest at its fixed offset from the end and
verifies it, or parses the length-prefixed OpenSSL signature blob and
returns it together with `ErrOpenssl`.  The Go function returns a pair
(value, error), both of which can be non-nil at once (OpenSSL case), so
the model returns the pair. -/
def GetSignature (env : Env) (src : List Nat) (size : Int) :
    Option Signature × Option String :=
  match readAtE src 8 (size - 8) with
  | .error e => (none, some e)
  | .ok bin =>
    let sigFlag := le32 (bin.take 4)
    if le32 (bin.drop 4) ≠ 1112359495 then (none, some ErrGBMB)
    else if sigFlag = 1 then
      match readAtE src 16 (size - 24) with
      | .error e => (none, some ("cannot get md5 hash: " ++ e))
      | .ok stored => digestTail env src size sigFlag stored
    else if sigFlag = 2 then
      match readAtE src 20 (size - 28) with
      | .error e => (none, some ("cannot get sha1 hash: " ++ e))
      | .ok stored => digestTail env src size sigFlag stored
    else if sigFlag = 3 then
      match readAtE src 32 (size - 40) with
      | .error e => (none, some ("cannot get sha256 hash: " ++ e))
      | .ok stored => digestTail env src size sigFlag stored
    else if sigFlag = 4 then
      match readAtE src 64 (size - 72) with
      | .error e => (none, some ("cannot get sha512 hash: " ++ e))
      | .ok stored => digestTail env src size sigFlag stored
    else if sigFlag = 16 ∨ sigFlag = 17 ∨ sigFlag = 18 then
      let lenOffset := size - 8 - 4
      if lenOffset < 0 then (none, some "negative offset")
      else
        match readAtE src 4 lenOffset with
        | .error e =>
          (none, some ("reading signature length at offset " ++ toString lenOffset
            ++ ": " ++ e))
        | .ok lenBuf =>
          let sigLen32 := le32 lenBuf
          if sigLen32 = 0 ∨ sigLen32 > 8192 then
            (none, some ("invalid signature length " ++ toString sigLen32
              ++ " (must be > 0 and <= 8192)"))
          else
            let sigOffset := size - 8 - 4 - (sigLen32 : Int)
            if sigOffset < 0 then
              (none, some ("calculated negative signature offset " ++ toString sigOffset
                ++ " (size: " ++ toString size ++ ", sigLen: " ++ toString (sigLen32 : Int)
                ++ ")"))
            else
              match readAtE src sigLen32 sigOffset with
              | .error e =>
                (none, some ("reading signature data at offset " ++ toString sigOffset
                  ++ " (length " ++ toString (sigLen32 : Int) ++ "): " ++ e))
              | .ok blob => (some { Signature := sigFlag, Hash := blob }, some ErrOpenssl)
    else (none, some ErrInvalidSignature)

/-- The `Phar` struct of `phar.go`. -/
structure Phar where
  Menifest : Manifest
  Signature : Option Signature
  Files : List File
deriving DecidableEq, Repr

/-- The first loop of `NewReader` (`for range manifest.EntitiesCount`):
decode `count` entry descriptors in order, threading the cursor; a
failure wraps the entry error exactly as `reader.go` does. -/
def readEntries (env : Env) (src : List Nat) :
    Nat → Int → Except String (List File × Int)
  | 0, off => .ok ([], off)
  | n + 1, off =>
    match ParseEntryManifest env src off with
    | .error e => .error ("cannot get file entry: " ++ e)
    | .ok (f, off2) =>
      match readEntries env src n off2 with
      | .error e => .error e
      | .ok (fs, off3) => .ok (f :: fs, off3)

/-- The second loop of `NewReader`: assign each entry its payload offset
(previous offset plus previous on-disk length), open it (decompressing if
flagged) and verify its CRC-32, failing on the first offender.  Stream
errors of a decompressor surface through `Open` here; both failure
messages of `reader.go` name the entry. -/
def checkFiles (env : Env) (src : List Nat) :
    Int → List File → Except String (List File)
  | _, [] => .ok []
  | off, f :: fs =>
    let f2 : File := { f with dataOffset := off }
    match Open env src f2 with
    | .error e => .error ("cannot checj CRC to " ++ f2.Filename ++ ": " ++ e)
    | .ok data =>
      if crc32 data ≠ f2.CRC then
        .error (f2.Filename ++ " has bad CRC, expect: " ++ toString f2.CRC
          ++ ", recived: " ++ toString (crc32 data))
      else
        match checkFiles env src (off + (f2.dataLen : Int)) fs with
        | .error e => .error e
        | .ok fs2 => .ok (f2 :: fs2)

/-- Function `NewReader` from `reader.go`: parse the manifest, fetch the
signature when the signed bit is set (aborting on its error), decode all
entry descriptors, then assign offsets and check CRCs; any failure
returns an error and no archive. -/
def NewReader (env : Env) (src : List Nat) (size : Int) : GoRes Phar :=
  match ParseManifest src with
  | .panic => .panic
  | .err e => .err ("cannot parse manifest: " ++ e)
  | .ok (manifest, offset) =>
    match (if manifest.IsSigned then GetSignature env src size else (none, none)) with
    | (_, some e) => .err e
    | (sig, none) =>
      match readEntries env src manifest.EntitiesCount offset with
      | .error e => .err e
      | .ok (files, off2) =>
        match checkFiles env src off2 files with
        | .error e => .err e
        | .ok files2 => .ok { Menifest := manifest, Signature := sig, Files := files2 }

/-- A 4-byte source (`AAAA`) that never contains the stub marker. -/
def c4src : List Nat := [65, 65, 65, 65]

/-- A 199-byte source that ends with the stub marker (no bytes follow
it): 178 padding bytes `A`, then the 21-byte marker. -/
def c5src : List Nat := List.replicate 178 65 ++ haltCompiler

/-- A 202-byte source whose stub marker ends exactly at the 200-byte
scan-window boundary, with two more bytes (`BC`) following it. -/
def c6src : List Nat := List.replicate 179 65 ++ haltCompiler ++ [66, 67]

/-- A 39-byte source: the stub marker followed by an 18-byte manifest
header whose alias-length field declares 0xFFFFFFFF. -/
def c7src : List Nat :=
  haltCompiler ++ [0, 0, 0, 0] ++ [0, 0, 0, 0] ++ [0, 0] ++ [0, 0, 0, 0]
    ++ [255, 255, 255, 255]

/-- A 43-byte source for the C8 witness: the stub marker followed by a
full 18-byte header (length 1, zero entries, packed version 0x1234,
flags 0x10000, empty alias) and a zero metadata length. -/
def wSrc8 : List Nat :=
  haltCompiler ++ [1, 0, 0, 0] ++ [0, 0, 0, 0] ++ [52, 18] ++ [0, 0, 1, 0]
    ++ [0, 0, 0, 0] ++ [0, 0, 0, 0]

/-- A 29-byte entry record whose flags word is 0x4000: a compression
bit outside gzip/bzip2 (uncompressed size 5, compressed size 3). -/
def wEntry4000 : List Nat :=
  [1, 0, 0, 0] ++ [97] ++ [5, 0, 0, 0] ++ [0, 0, 0, 0] ++ [3, 0, 0, 0]
    ++ [0, 0, 0, 0] ++ [0, 64, 0, 0] ++ [0, 0, 0, 0]

/-- The entry decoded from `wEntry4000`. -/
def wFile4000 : File := ⟨"a", 0, 0, 16384, 5, 3, 0, [], 0, 3⟩

/-- The same record with flags 0x3000: gzip and bzip2 bits both set. -/
def wEntry3000 : List Nat :=
  [1, 0, 0, 0] ++ [97] ++ [5, 0, 0, 0] ++ [0, 0, 0, 0] ++ [3, 0, 0, 0]
    ++ [0, 0, 0, 0] ++ [0, 48, 0, 0] ++ [0, 0, 0, 0]

/-- The entry decoded from `wEntry3000`. -/
def wFile3000 : File := ⟨"a", 0, 0, 12288, 5, 3, 0, [], 0, 3⟩

/-- Digest sizes of the four digest signature algorithms (MD5, SHA-1,
SHA-256, SHA-512), as read by `GetSignature`. -/
def digestLen : Nat → Nat
  | 1 => 16
  | 2 => 20
  | 3 => 32
  | 4 => 64
  | _ => 0

/-- A 40-byte MD5-signed blob for the C2 witness: 16 body zeros, the
16-zero stored digest, algorithm id 1, the `GBMB` trailer. -/
def wSrc2 : List Nat := List.replicate 32 0 ++ [1, 0, 0, 0] ++ [71, 66, 77, 66]

/-- A 56-byte signed archive for the C9 witness: stub marker, manifest
header with the signed flag (0x10000) and zero entries, zero metadata
length, then a 1-byte signature blob [7], its length field 1, algorithm
id 0x0010 (OpenSSL) and the `GBMB` trailer. -/
def wSrc9 : List Nat :=
  haltCompiler ++ [0, 0, 0, 0] ++ [0, 0, 0, 0] ++ [0, 0] ++ [0, 0, 1, 0]
    ++ [0, 0, 0, 0] ++ [0, 0, 0, 0]
    ++ [7] ++ [1, 0, 0, 0] ++ [16, 0, 0, 0] ++ [71, 66, 77, 66]

/-- Shape of the two per-entry failure messages of the CRC loop of
`reader.go`: each names the offending entry's filename. -/
def entryError (name e : String) : Prop :=
  (∃ s, e = "cannot checj CRC to " ++ name ++ ": " ++ s)
  ∨ (∃ a b : Nat, e = name ++ " has bad CRC, expect: " ++ toString a
      ++ ", recived: " ++ toString b)

/-- Specification predicate for the CRC pass: every entry, opened at
its chained payload offset, decodes and has a matching CRC-32. -/
def crcSpec (env : Env) (src : List Nat) : Int → List File → Prop
  | _, [] => True
  | off, f :: fs =>
    (∃ d, Open env src { f with dataOffset := off } = .ok d ∧ crc32 d = f.CRC)
    ∧ crcSpec env src (off + (f.dataLen : Int)) fs

/-- The offset-chain invariant of the claim: the first entry sits at
`off`, and each following entry at the previous offset plus the previous
on-disk length. -/
def chained : Int → List File → Prop
  | _, [] => True
  | off, f :: fs => f.dataOffset = off ∧ chained (off + (f.dataLen : Int)) fs

/-- A 76-byte single-entry archive for the C1 witness: stub marker,
manifest header (1 entity, version 1.1.0), one stored entry `a` with a
4-zero-byte payload and its correct CRC 0x2144DF1C. -/
def wSrc1 : List Nat :=
  haltCompiler ++
  [0,0,0,0] ++ [1,0,0,0] ++ [17,0] ++ [0,0,0,0] ++ [0,0,0,0] ++
  [0,0,0,0] ++
  [1,0,0,0] ++ [97] ++ [4,0,0,0] ++ [0,0,0,0] ++ [0,0,0,0] ++ [28,223,68,33] ++
  [0,0,0,0] ++ [0,0,0,0] ++
  [0,0,0,0]

/-- The manifest decoded from `wSrc1`. -/
def wMan1 : Manifest := ⟨0, 1, "1.1.0", 0, [], 0, [], false⟩

/-- The entry descriptor decoded from `wSrc1` and `wSrc3` (payload of
four zero bytes, CRC 0x2144DF1C = 558161692). -/
def wFileA : File := ⟨"a", 0, 0, 0, 4, 0, 558161692, [], 0, 4⟩

/-- A 106-byte two-entry archive for the C3 witness (entries `a` and
`b`, payloads of 4 and 1 zero bytes at offsets 101 and 105). -/
def wSrc3 : List Nat :=
  haltCompiler ++
  [0,0,0,0] ++ [2,0,0,0] ++ [0,0] ++ [0,0,0,0] ++ [0,0,0,0] ++ [0,0,0,0] ++
  [1,0,0,0] ++ [97] ++ [4,0,0,0] ++ [0,0,0,0] ++ [0,0,0,0] ++ [28,223,68,33] ++
  [0,0,0,0] ++ [0,0,0,0] ++
  [1,0,0,0] ++ [98] ++ [1,0,0,0] ++ [0,0,0,0] ++ [0,0,0,0] ++ [141,239,2,210] ++
  [0,0,0,0] ++ [0,0,0,0] ++
  [0,0,0,0] ++ [0]

/-- The manifest decoded from `wSrc3`. -/
def wMan3 : Manifest := ⟨0, 2, "0.0.0", 0, [], 0, [], false⟩

/-- The second entry descriptor of `wSrc3` (payload [0], CRC
0xD202EF8D = 3523407757). -/
def wFileB : File := ⟨"b", 0, 0, 0, 1, 0, 3523407757, [], 0, 1⟩

/-- The archive produced from `wSrc3` (offsets 101 and 105 chained). -/
def wPhar3 : Phar :=
  ⟨wMan3, none, [{ wFileA with dataOffset := 101 }, { wFileB with dataOffset := 105 }]⟩

/-- C4: the claim states that when the marker never appears the stub
locator returns a NotFound-style error and no success value.  The code
instead returns success (`err == nil`) carrying the meaningless offset
`currentPossion - 1 - bufSize + len(marker)` (here -176) once EOF is
reached without a match — refuting the claim on this input. -/
theorem getOffset_no_marker_returns_success :
    getOffset c4src 200 haltCompiler = GoRes.ok (-176) := by
  decide

/-- C5: the claim states that a matched marker followed by fewer than 2
bytes yields an UnexpectedEnd error and that the locator never indexes
past the end of its search buffer.  On this input (marker ends one byte
before the end of the 400-byte search slice; no bytes follow it in the
file) the bounds check `index+len >= len(search)` passes and the read of
`search[index+len+1]` indexes out of range: a Go runtime panic, not the
claimed error. -/
theorem getOffset_marker_at_end_panics :
    getOffset c5src 200 haltCompiler = GoRes.panic := by
  decide

/-- C6: the claim states the marker is located at any position,
including ending exactly at the 200-byte scan-window boundary, when at
least 2 bytes follow.  On this input the marker ends exactly at the
boundary (`index+len == len(search)`), two bytes follow in the file, and
the code nevertheless returns the "unexpected end of file" error instead
of offset 200. -/
theorem getOffset_marker_at_window_boundary_errors :
    getOffset c6src 200 haltCompiler = GoRes.err "unexpected end of file" := by
  decide

/-- C7: the claim states every size-prefixed length is validated against
the remaining source before being used to allocate.  On this 39-byte
input the decoded alias length 0xFFFFFFFF is handed to
`make([]byte, n)` (recorded in the allocation trace) with no prior
bounds check; only the subsequent `ReadAt` fails. -/
theorem ParseManifest_unchecked_alias_alloc :
    (ParseManifestA c7src).2 = [4294967295] ∧ c7src.length = 39 ∧
      (ParseManifestA c7src).1 = GoRes.err "EOF" := by
  refine ⟨by decide, by decide, by decide⟩

/-- A uint16 value `w` shifted left then right by 12 inside 16 bits (the
idiom `(w << 12) >> 12` of `ParseManifest`) extracts the low nibble. -/
theorem nibbleShift (w : Nat) : ((w <<< 12) % 65536) >>> 12 = w % 16 := by
  rw [Nat.shiftLeft_eq, Nat.shiftRight_eq_div_pow]
  show w * 2 ^ 12 % 65536 / 2 ^ 12 = w % 16
  have h1 : (65536 : Nat) = 16 * 2 ^ 12 := by norm_num
  rw [h1, Nat.mul_mod_mul_right, Nat.mul_div_cancel _ (by norm_num : (0:Nat) < 2 ^ 12)]

/-- C8: `ParseManifest` decodes the 18-byte little-endian fixed header
as 4B manifest length, 4B entry count, 2B packed version, 4B flags and
4B alias length; the version string "X.Y.Z" is built from the three
low 4-bit fields of the little-endian packed version (X = bits 0-3,
Y = bits 4-7, Z = bits 8-11), and the signed flag is bit 0x10000 of the
flags word. -/
theorem ParseManifest_header_fields (src : List Nat) (m : Manifest) (off2 : Int)
    (h : ParseManifest src = GoRes.ok (m, off2)) :
    ∃ off h18, getOffset src 200 haltCompiler = GoRes.ok off ∧
      readAtE src 18 off = .ok h18 ∧
      m.Length = le32 (h18.take 4) ∧
      m.EntitiesCount = le32 ((h18.drop 4).take 4) ∧
      m.Version = toString (le16 ((h18.drop 8).take 2) % 16) ++ "." ++
        toString (le16 ((h18.drop 8).take 2) / 16 % 16) ++ "." ++
        toString (le16 ((h18.drop 8).take 2) / 256 % 16) ∧
      m.Flags = le32 ((h18.drop 10).take 4) ∧
      m.AliasLength = le32 (h18.drop 14) ∧
      (m.IsSigned = true ↔ m.Flags &&& 0x10000 > 0) := by
  unfold ParseManifest ParseManifestA at h
  cases hg : getOffset src 200 haltCompiler with
  | panic => rw [hg] at h; simp at h
  | err e => rw [hg] at h; simp at h
  | ok off =>
    rw [hg] at h; dsimp only at h
    refine ⟨off, ?_⟩
    cases hr : readAtE src 18 off with
    | error e => rw [hr] at h; simp at h
    | ok h18 =>
      rw [hr] at h; dsimp only at h
      refine ⟨h18, rfl, rfl, ?_⟩
      cases ha : readAtE src (le32 (List.drop 14 h18)) (off + 18) with
      | error e => rw [ha] at h; simp at h
      | ok aliasB =>
        rw [ha] at h; dsimp only at h
        cases hm4 : readAtE src 4 (off + 18 + (le32 (List.drop 14 h18) : Int)) with
        | error e => rw [hm4] at h; simp at h
        | ok metaLenB =>
          rw [hm4] at h; dsimp only at h
          by_cases hml : le32 metaLenB > 0
          · rw [if_pos hml] at h
            cases hmd : readAtE src (le32 metaLenB)
                (off + 18 + (le32 (List.drop 14 h18) : Int) + 4) with
            | error e => rw [hmd] at h; simp at h
            | ok md =>
              rw [hmd] at h; dsimp only at h
              simp only [GoRes.ok.injEq, Prod.mk.injEq] at h
              obtain ⟨hm', _⟩ := h
              subst hm'
              refine ⟨rfl, rfl, ?_, rfl, rfl, ?_⟩
              · dsimp only
                rw [nibbleShift, nibbleShift, nibbleShift,
                  Nat.shiftRight_eq_div_pow, Nat.shiftRight_eq_div_pow]
              · simp [decide_eq_true_eq]
          · rw [if_neg hml] at h
            simp only [GoRes.ok.injEq, Prod.mk.injEq] at h
            obtain ⟨hm', _⟩ := h
            subst hm'
            refine ⟨rfl, rfl, ?_, rfl, rfl, ?_⟩
            · dsimp only
              rw [nibbleShift, nibbleShift, nibbleShift,
                Nat.shiftRight_eq_div_pow, Nat.shiftRight_eq_div_pow]
            · simp [decide_eq_true_eq]

/-- Witness for C8 at the concrete archive `wSrc8` (packed version
0x1234 decodes to "4.3.2", flags 0x10000 set the signed bit). -/
theorem ParseManifest_header_fields_witness :
    ParseManifest wSrc8 = GoRes.ok (⟨1, 0, "4.3.2", 65536, [], 0, [], true⟩, 43) ∧
    (∃ off h18, getOffset wSrc8 200 haltCompiler = GoRes.ok off ∧
      readAtE wSrc8 18 off = .ok h18 ∧
      (1 : Nat) = le32 (h18.take 4) ∧
      (0 : Nat) = le32 ((h18.drop 4).take 4) ∧
      "4.3.2" = toString (le16 ((h18.drop 8).take 2) % 16) ++ "." ++
        toString (le16 ((h18.drop 8).take 2) / 16 % 16) ++ "." ++
        toString (le16 ((h18.drop 8).take 2) / 256 % 16) ∧
      (65536 : Nat) = le32 ((h18.drop 10).take 4) ∧
      (0 : Nat) = le32 (h18.drop 14) ∧
      (true = true ↔ (65536 : Nat) &&& 0x10000 > 0)) :=
  ⟨by decide, ParseManifest_header_fields wSrc8
    ⟨1, 0, "4.3.2", 65536, [], 0, [], true⟩ 43 (by decide)⟩

/-- C10: for any parsed entry, if any bit of the compression mask
0xF000 is set the derived on-disk length is the declared compressed size
(otherwise the uncompressed size); `Open` with both gzip and bzip2 bits
clear is the bounded raw-byte pass-through with no decompression, and
with the gzip bit set it decompresses as gzip regardless of the bzip2
bit (the gzip branch of the switch takes precedence). -/
theorem entry_compression (env : Env) (src : List Nat) (off : Int) (f : File) (off2 : Int)
    (h : ParseEntryManifest env src off = .ok (f, off2)) :
    (f.Flags &&& CompressionMask > 0 → f.dataLen = f.SizeCompressed)
    ∧ (f.Flags &&& CompressionMask = 0 → f.dataLen = f.SizeUncompressed)
    ∧ (f.Flags &&& EntryCompressedGzip = 0 → f.Flags &&& EntryCompressedBzip2 = 0 →
        ∀ d : Int, Open env src { f with dataOffset := d } = rawSegment src d f.dataLen)
    ∧ (f.Flags &&& EntryCompressedGzip > 0 →
        ∀ d : Int, Open env src { f with dataOffset := d } =
          (rawSegment src d f.dataLen).bind env.gzipDecode) := by
  refine ⟨?_, ?_, ?_, ?_⟩
  · intro hc
    unfold ParseEntryManifest at h
    cases h4 : readAtE src 4 off with
    | error e => rw [h4] at h; simp at h
    | ok b4 =>
      rw [h4] at h; dsimp only at h
      cases hb : readAtE src (28 + le32 b4) off with
      | error e => rw [hb] at h; simp at h
      | ok buff =>
        rw [hb] at h; dsimp only at h
        cases hm : (if le32 ((List.drop (4 + le32 b4) buff).drop 20 |>.take 4) > 0 then
            readAtE src (le32 ((List.drop (4 + le32 b4) buff).drop 20 |>.take 4))
              (off + ((28 + le32 b4 : Nat) : Int)) else .ok []) with
        | error e => rw [hm] at h; simp at h
        | ok meta =>
          rw [hm] at h
          simp only [Except.ok.injEq, Prod.mk.injEq] at h
          obtain ⟨hf, _⟩ := h
          subst hf
          simp only at hc ⊢
          rw [if_pos hc]
  · intro hc
    unfold ParseEntryManifest at h
    cases h4 : readAtE src 4 off with
    | error e => rw [h4] at h; simp at h
    | ok b4 =>
      rw [h4] at h; dsimp only at h
      cases hb : readAtE src (28 + le32 b4) off with
      | error e => rw [hb] at h; simp at h
      | ok buff =>
        rw [hb] at h; dsimp only at h
        cases hm : (if le32 ((List.drop (4 + le32 b4) buff).drop 20 |>.take 4) > 0 then
            readAtE src (le32 ((List.drop (4 + le32 b4) buff).drop 20 |>.take 4))
              (off + ((28 + le32 b4 : Nat) : Int)) else .ok []) with
        | error e => rw [hm] at h; simp at h
        | ok meta =>
          rw [hm] at h
          simp only [Except.ok.injEq, Prod.mk.injEq] at h
          obtain ⟨hf, _⟩ := h
          subst hf
          simp only at hc ⊢
          rw [if_neg (by omega)]
  · intro hg hb d
    unfold Open
    cases hraw : rawSegment src d f.dataLen with
    | error e => simp [hraw]
    | ok raw => simp [hraw, hg, hb]
  · intro hg d
    unfold Open
    cases hraw : rawSegment src d f.dataLen with
    | error e => simp [hraw, Except.bind]
    | ok raw => simp [hraw, hg, Except.bind]

/-- Witness for C10: an entry with flags 0x4000 gets the compressed
on-disk length and a raw pass-through `Open`; one with flags 0x3000
(gzip and bzip2 both set) opens through gzip. -/
theorem entry_compression_witness :
    (ParseEntryManifest idEnv wEntry4000 0 = .ok (wFile4000, 29) ∧
      wFile4000.dataLen = wFile4000.SizeCompressed ∧
      Open idEnv wEntry4000 { wFile4000 with dataOffset := 0 } =
        rawSegment wEntry4000 0 wFile4000.dataLen) ∧
    (ParseEntryManifest idEnv wEntry3000 0 = .ok (wFile3000, 29) ∧
      Open idEnv wEntry3000 { wFile3000 with dataOffset := 0 } =
        (rawSegment wEntry3000 0 wFile3000.dataLen).bind idEnv.gzipDecode) :=
  ⟨⟨by decide,
    (entry_compression idEnv wEntry4000 0 wFile4000 29 (by decide)).1 (by decide),
    (entry_compression idEnv wEntry4000 0 wFile4000 29 (by decide)).2.2.1
      (by decide) (by decide) 0⟩,
   ⟨by decide,
    (entry_compression idEnv wEntry3000 0 wFile3000 29 (by decide)).2.2.2 (by decide) 0⟩⟩

/-- An in-bounds full read succeeds and yields the slice. -/
theorem readAtE_ok_of_bounds (src : List Nat) (n : Nat) (off : Int)
    (h0 : 0 ≤ off) (hn : off + (n : Int) ≤ (src.length : Int)) :
    readAtE src n off = .ok ((src.drop off.toNat).take n) := by
  unfold readAtE
  by_cases hz : n = 0
  · subst hz; simp
  · rw [if_neg hz, if_neg (by omega), if_pos hn]

/-- An in-bounds `CopyN` yields the leading slice. -/
theorem copyN_ok (src : List Nat) (m : Int) (h0 : 0 ≤ m) (hm : m ≤ (src.length : Int)) :
    copyN src m = .ok (src.take m.toNat) := by
  unfold copyN
  by_cases hz : m ≤ 0
  · have hm0 : m = 0 := le_antisymm hz h0
    subst hm0; simp
  · rw [if_neg hz, if_pos hm]

/-- Reading `dl` bytes at `size - (8 + dl)` yields the digest slice. -/
theorem readAt_tail (src : List Nat) (dl : Nat) (hfit : 8 + dl ≤ src.length) :
    readAtE src dl ((src.length : Int) - ((8 + dl : Nat) : Int)) =
      .ok ((src.drop (src.length - (8 + dl))).take dl) := by
  have ht : ((src.length : Int) - ((8 + dl : Nat) : Int)).toNat = src.length - (8 + dl) := by
    omega
  rw [readAtE_ok_of_bounds _ _ _ (by push_cast; omega) (by push_cast; omega), ht]

/-- Length of the stored digest slice. -/
theorem tail_len (src : List Nat) (dl : Nat) (hfit : 8 + dl ≤ src.length) :
    ((src.drop (src.length - (8 + dl))).take dl).length = dl := by
  simp only [List.length_take, List.length_drop]
  omega

/-- Evaluation of the shared comparison tail of `GetSignature`: hash the
leading `size - (8 + dl)` bytes and compare with the stored digest. -/
theorem digestTail_eval (env : Env) (src : List Nat) (flag dl : Nat) (stored : List Nat)
    (hlen : stored.length = dl) (hfit : 8 + dl ≤ src.length) :
    digestTail env src (src.length : Int) flag stored =
      (if hashOf env flag (src.take (src.length - (8 + dl))) = stored
       then (some ⟨flag, stored⟩, none) else (none, some ErrInvalidSignature)) := by
  unfold digestTail
  have hc : copyN src ((src.length : Int) - ((8 + stored.length : Nat) : Int)) =
      .ok (src.take (src.length - (8 + dl))) := by
    have ht : ((src.length : Int) - ((8 + stored.length : Nat) : Int)).toNat =
        src.length - (8 + dl) := by omega
    rw [copyN_ok _ _ (by push_cast; omega) (by push_cast; omega), ht]
  rw [hc]
  dsimp only
  by_cases heq : hashOf env flag (src.take (src.length - (8 + dl))) = stored
  · rw [if_neg (by simp [heq]), if_pos heq]
  · rw [if_pos heq, if_neg heq]

/-- C2: for a signed archive, `GetSignature` reads the trailing 8 bytes
as a 4-byte little-endian algorithm id plus the little-endian `GBMB`
magic (1112359495), failing with the trailer-magic error on mismatch;
for the digest algorithms the stored digest of size `digestLen` sits at
`size - (8 + digestLen)` from the start (MD5 16B at size-24, SHA-1 20B
at size-28, SHA-256 32B at size-40, SHA-512 64B at size-72), the byte
range `[0, size - 8 - digestLen)` is hashed with the matching algorithm
and compared with the stored digest: equality succeeds, mismatch yields
the bad-signature error. -/
theorem GetSignature_digest_spec (env : Env) (src bin : List Nat)
    (hbin : readAtE src 8 ((src.length : Int) - 8) = .ok bin) :
    (le32 (bin.drop 4) ≠ 1112359495 →
      GetSignature env src (src.length : Int) = (none, some ErrGBMB))
    ∧ (∀ flag, le32 (bin.take 4) = flag → le32 (bin.drop 4) = 1112359495 →
        (flag = 1 ∨ flag = 2 ∨ flag = 3 ∨ flag = 4) →
        8 + digestLen flag ≤ src.length →
        GetSignature env src (src.length : Int) =
          (if hashOf env flag (src.take (src.length - (8 + digestLen flag))) =
              (src.drop (src.length - (8 + digestLen flag))).take (digestLen flag)
           then (some ⟨flag, (src.drop (src.length - (8 + digestLen flag))).take (digestLen flag)⟩,
             none)
           else (none, some ErrInvalidSignature))) := by
  constructor
  · intro hne
    unfold GetSignature
    rw [hbin]
    dsimp only
    rw [if_pos hne]
  · intro flag hflag hmagic halg hfit
    unfold GetSignature
    rw [hbin]
    dsimp only
    rw [if_neg (by simp [hmagic])]
    rcases halg with h1 | h1 | h1 | h1 <;> subst h1
    · rw [if_pos hflag]
      have hs := readAt_tail src 16 (by simpa [digestLen] using hfit)
      norm_num at hs
      rw [hs]
      dsimp only
      rw [digestTail_eval env src (le32 (bin.take 4)) 16 _
        (tail_len src 16 (by simpa [digestLen] using hfit))
        (by simpa [digestLen] using hfit)]
      simp only [digestLen, hflag]
    · rw [if_neg (by omega), if_pos hflag]
      have hs := readAt_tail src 20 (by simpa [digestLen] using hfit)
      norm_num at hs
      rw [hs]
      dsimp only
      rw [digestTail_eval env src (le32 (bin.take 4)) 20 _
        (tail_len src 20 (by simpa [digestLen] using hfit))
        (by simpa [digestLen] using hfit)]
      simp only [digestLen, hflag]
    · rw [if_neg (by omega), if_neg (by omega), if_pos hflag]
      have hs := readAt_tail src 32 (by simpa [digestLen] using hfit)
      norm_num at hs
      rw [hs]
      dsimp only
      rw [digestTail_eval env src (le32 (bin.take 4)) 32 _
        (tail_len src 32 (by simpa [digestLen] using hfit))
        (by simpa [digestLen] using hfit)]
      simp only [digestLen, hflag]
    · rw [if_neg (by omega), if_neg (by omega), if_neg (by omega), if_pos hflag]
      have hs := readAt_tail src 64 (by simpa [digestLen] using hfit)
      norm_num at hs
      rw [hs]
      dsimp only
      rw [digestTail_eval env src (le32 (bin.take 4)) 64 _
        (tail_len src 64 (by simpa [digestLen] using hfit))
        (by simpa [digestLen] using hfit)]
      simp only [digestLen, hflag]

/-- Witness for C2 at `wSrc2` with the identity digest environment: the
hash of bytes [0, 16) equals the stored digest at size-24, so
verification succeeds. -/
theorem GetSignature_digest_spec_witness :
    readAtE wSrc2 8 ((wSrc2.length : Int) - 8) = .ok [1, 0, 0, 0, 71, 66, 77, 66] ∧
    GetSignature idEnv wSrc2 (wSrc2.length : Int) =
      (some ⟨1, List.replicate 16 0⟩, none) := by
  refine ⟨by decide, ?_⟩
  have h := (GetSignature_digest_spec idEnv wSrc2 [1, 0, 0, 0, 71, 66, 77, 66]
    (by decide)).2 1 (by decide) (by decide) (Or.inl rfl) (by decide)
  rw [h]
  decide

/-- C9: with a valid trailer whose algorithm id is an OpenSSL one
(0x0010, 0x0011, 0x0012), `GetSignature` parses the length-prefixed
signature blob (4-byte little-endian length right before the 8-byte
trailer, blob right before that, length checked in (0, 8192]) and
returns it together with the distinct `ErrOpenssl` outcome — never a
successful verification; any other unknown id yields
`ErrInvalidSignature`; and `NewReader` turns any signature error of a
signed archive into a parse failure, so no archive is produced. -/
theorem GetSignature_openssl_spec (env : Env) (src bin : List Nat)
    (hbin : readAtE src 8 ((src.length : Int) - 8) = .ok bin)
    (hmagic : le32 (bin.drop 4) = 1112359495) :
    (∀ flag, le32 (bin.take 4) = flag → (flag = 16 ∨ flag = 17 ∨ flag = 18) →
      ∀ lb, readAtE src 4 ((src.length : Int) - 8 - 4) = .ok lb →
        0 < le32 lb → le32 lb ≤ 8192 → 12 + le32 lb ≤ src.length →
        GetSignature env src (src.length : Int) =
          (some ⟨flag, (src.drop (src.length - 12 - le32 lb)).take (le32 lb)⟩,
            some ErrOpenssl))
    ∧ (∀ flag, le32 (bin.take 4) = flag →
        ¬(flag = 1 ∨ flag = 2 ∨ flag = 3 ∨ flag = 4 ∨ flag = 16 ∨ flag = 17 ∨ flag = 18) →
        GetSignature env src (src.length : Int) = (none, some ErrInvalidSignature))
    ∧ (∀ (env2 : Env) (src2 : List Nat) (size2 : Int) (m : Manifest) (off : Int)
        (s : Option Signature) (e : String),
        ParseManifest src2 = GoRes.ok (m, off) → m.IsSigned = true →
        GetSignature env2 src2 size2 = (s, some e) →
        NewReader env2 src2 size2 = GoRes.err e) := by
  refine ⟨?_, ?_, ?_⟩
  · intro flag hflag halg lb hlb hpos hmax hfit
    unfold GetSignature
    rw [hbin]
    dsimp only
    rw [if_neg (by simp [hmagic])]
    rw [if_neg (by omega), if_neg (by omega), if_neg (by omega), if_neg (by omega),
      if_pos (by omega)]
    rw [if_neg (by omega)]
    rw [hlb]
    dsimp only
    rw [if_neg (by omega)]
    rw [if_neg (by omega)]
    have hblob : readAtE src (le32 lb) ((src.length : Int) - 8 - 4 - (le32 lb : Int)) =
        .ok ((src.drop (src.length - 12 - le32 lb)).take (le32 lb)) := by
      have ht : ((src.length : Int) - 8 - 4 - (le32 lb : Int)).toNat =
          src.length - 12 - le32 lb := by omega
      rw [readAtE_ok_of_bounds _ _ _ (by omega) (by omega), ht]
    rw [hblob]
    dsimp only
    rw [hflag]
  · intro flag hflag hne
    unfold GetSignature
    rw [hbin]
    dsimp only
    rw [if_neg (by simp [hmagic])]
    rw [if_neg (by omega), if_neg (by omega), if_neg (by omega), if_neg (by omega),
      if_neg (by omega)]
  · intro env2 src2 size2 m off s e hpm hsigned hgs
    unfold NewReader
    rw [hpm]
    dsimp only
    have hif : (if m.IsSigned = true then GetSignature env2 src2 size2 else (none, none)) =
        GetSignature env2 src2 size2 := by rw [hsigned]; simp
    rw [hif, hgs]

/-- Witness for C9 at `wSrc9`: the blob [7] is parsed, `GetSignature`
yields it with `ErrOpenssl`, and `NewReader` on the whole signed archive
yields the `ErrOpenssl` failure, not an archive. -/
theorem GetSignature_openssl_spec_witness :
    GetSignature idEnv wSrc9 ((wSrc9.length : Int)) =
      (some ⟨16, [7]⟩, some ErrOpenssl) ∧
    NewReader idEnv wSrc9 ((wSrc9.length : Int)) = GoRes.err ErrOpenssl := by
  have hspec := GetSignature_openssl_spec idEnv wSrc9 [16, 0, 0, 0, 71, 66, 77, 66]
    (by decide) (by decide)
  have h1 : GetSignature idEnv wSrc9 ((wSrc9.length : Int)) =
      (some ⟨16, [7]⟩, some ErrOpenssl) := by
    rw [hspec.1 16 (by decide) (Or.inl rfl) [1, 0, 0, 0] (by decide) (by decide)
      (by decide) (by decide)]
    decide
  exact ⟨h1, hspec.2.2 idEnv wSrc9 ((wSrc9.length : Int))
    ⟨0, 0, "0.0.0", 65536, [], 0, [], true⟩ 43 (some ⟨16, [7]⟩) ErrOpenssl
    (by decide) rfl h1⟩

/-- Every parsed entry's on-disk length is the compressed size exactly
when a compression bit is set. -/
theorem parseEntry_dataLen (env : Env) (src : List Nat) (off : Int) (f : File) (off2 : Int)
    (h : ParseEntryManifest env src off = .ok (f, off2)) :
    f.dataLen = if f.Flags &&& CompressionMask > 0 then f.SizeCompressed
      else f.SizeUncompressed := by
  unfold ParseEntryManifest at h
  cases h4 : readAtE src 4 off with
  | error e => rw [h4] at h; simp at h
  | ok b4 =>
    rw [h4] at h; dsimp only at h
    cases hb : readAtE src (28 + le32 b4) off with
    | error e => rw [hb] at h; simp at h
    | ok buff =>
      rw [hb] at h; dsimp only at h
      cases hm : (if le32 ((List.drop (4 + le32 b4) buff).drop 20 |>.take 4) > 0 then
          readAtE src (le32 ((List.drop (4 + le32 b4) buff).drop 20 |>.take 4))
            (off + ((28 + le32 b4 : Nat) : Int)) else .ok []) with
      | error e => rw [hm] at h; simp at h
      | ok meta =>
        rw [hm] at h
        simp only [Except.ok.injEq, Prod.mk.injEq] at h
        obtain ⟨hf, _⟩ := h
        subst hf
        rfl

/-- The entry loop decodes exactly as many descriptors as requested. -/
theorem readEntries_len (env : Env) (src : List Nat) :
    ∀ (n : Nat) (off : Int) (fs : List File) (off2 : Int),
      readEntries env src n off = .ok (fs, off2) → fs.length = n := by
  intro n
  induction n with
  | zero => intro off fs off2 h; unfold readEntries at h; simp at h; simp [h.1]
  | succ k ih =>
    intro off fs off2 h
    unfold readEntries at h
    cases h1 : ParseEntryManifest env src off with
    | error e => rw [h1] at h; simp at h
    | ok g =>
      rw [h1] at h; dsimp only at h
      cases h2 : readEntries env src k g.2 with
      | error e => rw [h2] at h; simp at h
      | ok gs =>
        rw [h2] at h
        simp only [Except.ok.injEq, Prod.mk.injEq] at h
        obtain ⟨hfs, _⟩ := h
        subst hfs
        simp [ih g.2 gs.1 gs.2 (by rw [h2])]

/-- Every descriptor decoded by the entry loop carries the on-disk
length derived from its compression bits. -/
theorem readEntries_dataLen (env : Env) (src : List Nat) :
    ∀ (n : Nat) (off : Int) (fs : List File) (off2 : Int),
      readEntries env src n off = .ok (fs, off2) →
      ∀ f ∈ fs, f.dataLen = if f.Flags &&& CompressionMask > 0 then f.SizeCompressed
        else f.SizeUncompressed := by
  intro n
  induction n with
  | zero =>
    intro off fs off2 h
    unfold readEntries at h; simp at h
    simp [h.1]
  | succ k ih =>
    intro off fs off2 h
    unfold readEntries at h
    cases h1 : ParseEntryManifest env src off with
    | error e => rw [h1] at h; simp at h
    | ok g =>
      rw [h1] at h; dsimp only at h
      cases h2 : readEntries env src k g.2 with
      | error e => rw [h2] at h; simp at h
      | ok gs =>
        rw [h2] at h
        simp only [Except.ok.injEq, Prod.mk.injEq] at h
        obtain ⟨hfs, _⟩ := h
        subst hfs
        intro f hf
        rcases List.mem_cons.1 hf with hfg | hmem
        · subst hfg
          exact parseEntry_dataLen env src off g.1 g.2 (by rw [h1])
        · exact ih g.2 gs.1 gs.2 (by rw [h2]) f hmem

/-- The CRC pass succeeds exactly when `crcSpec` holds. -/
theorem checkFiles_ok_iff (env : Env) (src : List Nat) :
    ∀ (fs : List File) (off : Int),
      (∃ fs2, checkFiles env src off fs = .ok fs2) ↔ crcSpec env src off fs := by
  intro fs
  induction fs with
  | nil => intro off; simp [checkFiles, crcSpec]
  | cons f fs ih =>
    intro off
    constructor
    · rintro ⟨fs2, h⟩
      unfold checkFiles at h
      dsimp only at h
      cases ho : Open env src { f with dataOffset := off } with
      | error e => rw [ho] at h; simp at h
      | ok d =>
        rw [ho] at h; dsimp only at h
        by_cases hc : crc32 d ≠ f.CRC
        · rw [if_pos hc] at h; simp at h
        · rw [if_neg hc] at h
          cases hrest : checkFiles env src (off + (f.dataLen : Int)) fs with
          | error e => rw [hrest] at h; simp at h
          | ok fs3 =>
            push_neg at hc
            exact ⟨⟨d, ho, hc⟩, (ih _).1 ⟨fs3, hrest⟩⟩
    · rintro ⟨⟨d, ho, hc⟩, hrest⟩
      obtain ⟨fs3, h3⟩ := (ih _).2 hrest
      refine ⟨{ f with dataOffset := off } :: fs3, ?_⟩
      unfold checkFiles
      dsimp only
      rw [ho]
      dsimp only
      rw [if_neg (by simp [hc]), h3]

/-- Every error of the CRC pass is one of the two per-entry messages
and names some entry of the list. -/
theorem checkFiles_err_names (env : Env) (src : List Nat) :
    ∀ (fs : List File) (off : Int) (e : String),
      checkFiles env src off fs = .error e → ∃ f ∈ fs, entryError f.Filename e := by
  intro fs
  induction fs with
  | nil => intro off e h; simp [checkFiles] at h
  | cons f fs ih =>
    intro off e h
    unfold checkFiles at h
    dsimp only at h
    cases ho : Open env src { f with dataOffset := off } with
    | error e2 =>
      rw [ho] at h
      simp only [Except.error.injEq] at h
      exact ⟨f, List.mem_cons_self f fs, Or.inl ⟨e2, h.symm⟩⟩
    | ok d =>
      rw [ho] at h; dsimp only at h
      by_cases hc : crc32 d ≠ f.CRC
      · rw [if_pos hc] at h
        simp only [Except.error.injEq] at h
        exact ⟨f, List.mem_cons_self f fs,
          Or.inr ⟨f.CRC, crc32 d, h.symm⟩⟩
      · rw [if_neg hc] at h
        cases hrest : checkFiles env src (off + (f.dataLen : Int)) fs with
        | error e3 =>
          rw [hrest] at h
          simp only [Except.error.injEq] at h
          obtain ⟨g, hg, hge⟩ := ih _ _ hrest
          exact ⟨g, List.mem_cons_of_mem f hg, h ▸ hge⟩
        | ok fs3 => rw [hrest] at h; simp at h

/-- The CRC pass preserves the filename sequence (decoded order). -/
theorem checkFiles_filenames (env : Env) (src : List Nat) :
    ∀ (fs : List File) (off : Int) (fs2 : List File),
      checkFiles env src off fs = .ok fs2 →
      fs2.map (fun f => f.Filename) = fs.map (fun f => f.Filename) := by
  intro fs
  induction fs with
  | nil => intro off fs2 h; simp [checkFiles] at h; simp [h]
  | cons f fs ih =>
    intro off fs2 h
    unfold checkFiles at h
    dsimp only at h
    cases ho : Open env src { f with dataOffset := off } with
    | error e => rw [ho] at h; simp at h
    | ok d =>
      rw [ho] at h; dsimp only at h
      by_cases hc : crc32 d ≠ f.CRC
      · rw [if_pos hc] at h; simp at h
      · rw [if_neg hc] at h
        cases hrest : checkFiles env src (off + (f.dataLen : Int)) fs with
        | error e => rw [hrest] at h; simp at h
        | ok fs3 =>
          rw [hrest] at h
          simp only [Except.ok.injEq] at h
          subst h
          simp [ih _ _ hrest]

/-- The files produced by the CRC pass carry chained payload offsets
starting at the pass's initial cursor. -/
theorem checkFiles_chained (env : Env) (src : List Nat) :
    ∀ (fs : List File) (off : Int) (fs2 : List File),
      checkFiles env src off fs = .ok fs2 → chained off fs2 := by
  intro fs
  induction fs with
  | nil => intro off fs2 h; simp [checkFiles] at h; subst h; simp [chained]
  | cons f fs ih =>
    intro off fs2 h
    unfold checkFiles at h
    dsimp only at h
    cases ho : Open env src { f with dataOffset := off } with
    | error e => rw [ho] at h; simp at h
    | ok d =>
      rw [ho] at h; dsimp only at h
      by_cases hc : crc32 d ≠ f.CRC
      · rw [if_pos hc] at h; simp at h
      · rw [if_neg hc] at h
        cases hrest : checkFiles env src (off + (f.dataLen : Int)) fs with
        | error e => rw [hrest] at h; simp at h
        | ok fs3 =>
          rw [hrest] at h
          simp only [Except.ok.injEq] at h
          subst h
          exact ⟨rfl, ih _ _ hrest⟩

/-- The CRC pass changes only `dataOffset`: sizes, flags and on-disk
length of each output entry come from some input entry. -/
theorem checkFiles_preserves (env : Env) (src : List Nat) :
    ∀ (fs : List File) (off : Int) (fs2 : List File),
      checkFiles env src off fs = .ok fs2 →
      ∀ f2 ∈ fs2, ∃ f ∈ fs, f2.dataLen = f.dataLen ∧ f2.Flags = f.Flags ∧
        f2.SizeCompressed = f.SizeCompressed ∧ f2.SizeUncompressed = f.SizeUncompressed := by
  intro fs
  induction fs with
  | nil => intro off fs2 h; simp [checkFiles] at h; subst h; simp
  | cons f fs ih =>
    intro off fs2 h
    unfold checkFiles at h
    dsimp only at h
    cases ho : Open env src { f with dataOffset := off } with
    | error e => rw [ho] at h; simp at h
    | ok d =>
      rw [ho] at h; dsimp only at h
      by_cases hc : crc32 d ≠ f.CRC
      · rw [if_pos hc] at h; simp at h
      · rw [if_neg hc] at h
        cases hrest : checkFiles env src (off + (f.dataLen : Int)) fs with
        | error e => rw [hrest] at h; simp at h
        | ok fs3 =>
          rw [hrest] at h
          simp only [Except.ok.injEq] at h
          subst h
          intro f2 hf2
          rcases List.mem_cons.1 hf2 with hfg | hmem
          · subst hfg
            exact ⟨f, List.mem_cons_self f fs, rfl, rfl, rfl, rfl⟩
          · obtain ⟨g, hg, hge⟩ := ih _ _ hrest f2 hmem
            exact ⟨g, List.mem_cons_of_mem f hg, hge⟩

/-- In a chained list the first entry sits at the initial offset. -/
theorem chained_head : ∀ (l : List File) (off : Int), chained off l →
    ∀ hne : l ≠ [], (l.head hne).dataOffset = off := by
  intro l off h hne
  cases l with
  | nil => exact absurd rfl hne
  | cons f fs => exact h.1

/-- In a chained list entry i+1's offset is entry i's offset plus
entry i's on-disk length. -/
theorem chained_get : ∀ (l : List File) (off : Int), chained off l →
    ∀ (i : Nat) (h1 : i + 1 < l.length) (h2 : i < l.length),
      (l.get ⟨i + 1, h1⟩).dataOffset =
        (l.get ⟨i, h2⟩).dataOffset + ((l.get ⟨i, h2⟩).dataLen : Int) := by
  intro l
  induction l with
  | nil => intro off h i h1 h2; simp at h1
  | cons f fs ih =>
    intro off h i h1 h2
    cases i with
    | zero =>
      cases fs with
      | nil => simp at h1
      | cons g gs =>
        show g.dataOffset = f.dataOffset + (f.dataLen : Int)
        have hf : f.dataOffset = off := h.1
        have hg : g.dataOffset = off + (f.dataLen : Int) := h.2.1
        rw [hf, hg]
    | succ j =>
      exact ih (off + (f.dataLen : Int)) h.2 j (by simpa using h1) (by simpa using h2)

/-- C1: given a decoded manifest, a passing signature step and all
entry descriptors decoded, `NewReader` returns an archive if and only if
every entry opens and its CRC-32 (reflected polynomial 0xEDB88320 over
the decompressed payload) matches its declared CRC; on success the
archive has exactly `Manifest.EntitiesCount` entries in decoded order
(same filename sequence), and on any failure of the check loop the
result is an error naming the offending entry — by the `GoRes` result
type no partial archive accompanies an error. -/
theorem NewReader_ok_iff_crc (env : Env) (src : List Nat) (size : Int)
    (m : Manifest) (off0 : Int) (files : List File) (off1 : Int)
    (hm : ParseManifest src = GoRes.ok (m, off0))
    (hsig : (if m.IsSigned then GetSignature env src size else (none, none)).2 = none)
    (he : readEntries env src m.EntitiesCount off0 = .ok (files, off1)) :
    ((∃ p, NewReader env src size = GoRes.ok p) ↔ crcSpec env src off1 files)
    ∧ (∀ p, NewReader env src size = GoRes.ok p →
        p.Files.length = m.EntitiesCount ∧
        p.Files.map (fun f => f.Filename) = files.map (fun f => f.Filename))
    ∧ (∀ e, NewReader env src size = GoRes.err e →
        ∃ f ∈ files, entryError f.Filename e) := by
  have hred : NewReader env src size = (match checkFiles env src off1 files with
      | .error e => GoRes.err e
      | .ok files2 =>
        GoRes.ok ⟨m, (if m.IsSigned then GetSignature env src size else (none, none)).1, files2⟩) := by
    unfold NewReader
    rw [hm]
    dsimp only
    cases hpr : (if m.IsSigned then GetSignature env src size else (none, none)) with
    | mk s1 s2 =>
      rw [hpr] at hsig
      obtain rfl : s2 = none := hsig
      dsimp only
      rw [he]
  refine ⟨?_, ?_, ?_⟩
  · constructor
    · rintro ⟨p, hp⟩
      rw [hred] at hp
      cases hcf : checkFiles env src off1 files with
      | error e => rw [hcf] at hp; simp at hp
      | ok fs2 => exact (checkFiles_ok_iff env src files off1).1 ⟨fs2, hcf⟩
    · intro hspec
      obtain ⟨fs2, hcf⟩ := (checkFiles_ok_iff env src files off1).2 hspec
      exact ⟨_, by rw [hred, hcf]⟩
  · intro p hp
    rw [hred] at hp
    cases hcf : checkFiles env src off1 files with
    | error e => rw [hcf] at hp; simp at hp
    | ok fs2 =>
      rw [hcf] at hp
      dsimp only at hp
      simp only [GoRes.ok.injEq] at hp
      subst hp
      constructor
      · show fs2.length = m.EntitiesCount
        rw [← readEntries_len env src m.EntitiesCount off0 files off1 he]
        have hlen := congrArg List.length (checkFiles_filenames env src files off1 fs2 hcf)
        simpa using hlen
      · exact checkFiles_filenames env src files off1 fs2 hcf
  · intro e hp
    rw [hred] at hp
    cases hcf : checkFiles env src off1 files with
    | error e2 =>
      rw [hcf] at hp
      dsimp only at hp
      simp only [GoRes.err.injEq] at hp
      exact hp ▸ checkFiles_err_names env src files off1 e2 hcf
    | ok fs2 => rw [hcf] at hp; simp at hp

/-- Witness for C1 at the concrete archive `wSrc1`. -/
theorem NewReader_ok_iff_crc_witness :
    ParseManifest wSrc1 = GoRes.ok (wMan1, 43) ∧
    readEntries idEnv wSrc1 wMan1.EntitiesCount 43 = .ok ([wFileA], 72) ∧
    (((∃ p, NewReader idEnv wSrc1 76 = GoRes.ok p) ↔ crcSpec idEnv wSrc1 72 [wFileA])
      ∧ (∀ p, NewReader idEnv wSrc1 76 = GoRes.ok p →
          p.Files.length = wMan1.EntitiesCount ∧
          p.Files.map (fun f => f.Filename) = [wFileA].map (fun f => f.Filename))
      ∧ (∀ e, NewReader idEnv wSrc1 76 = GoRes.err e →
          ∃ f ∈ [wFileA], entryError f.Filename e)) :=
  ⟨by decide, by decide,
   NewReader_ok_iff_crc idEnv wSrc1 76 wMan1 43 [wFileA] 72 (by decide) rfl (by decide)⟩

/-- C3: after a successful parse the archive's files are exactly the
output of the second pass (`checkFiles`) run on the fully decoded
descriptor list, entry 0's payload offset is the cursor position after
the last decoded descriptor, every entry i+1's payload offset is entry
i's offset plus entry i's on-disk length, and that on-disk length is the
declared compressed size when any compression bit is set and the
uncompressed size otherwise. -/
theorem NewReader_offsets (env : Env) (src : List Nat) (size : Int)
    (m : Manifest) (off0 : Int) (files : List File) (off1 : Int) (p : Phar)
    (hm : ParseManifest src = GoRes.ok (m, off0))
    (he : readEntries env src m.EntitiesCount off0 = .ok (files, off1))
    (hp : NewReader env src size = GoRes.ok p) :
    checkFiles env src off1 files = .ok p.Files
    ∧ (∀ hne : p.Files ≠ [], (p.Files.head hne).dataOffset = off1)
    ∧ (∀ (i : Nat) (h1 : i + 1 < p.Files.length) (h2 : i < p.Files.length),
        (p.Files.get ⟨i + 1, h1⟩).dataOffset =
          (p.Files.get ⟨i, h2⟩).dataOffset + ((p.Files.get ⟨i, h2⟩).dataLen : Int))
    ∧ (∀ f ∈ p.Files, f.dataLen =
        if f.Flags &&& CompressionMask > 0 then f.SizeCompressed
        else f.SizeUncompressed) := by
  unfold NewReader at hp
  rw [hm] at hp
  dsimp only at hp
  cases hpr : (if m.IsSigned then GetSignature env src size else (none, none)) with
  | mk s1 s2 =>
    rw [hpr] at hp
    cases s2 with
    | some e => dsimp only at hp; simp at hp
    | none =>
      dsimp only at hp
      rw [he] at hp
      dsimp only at hp
      cases hcf : checkFiles env src off1 files with
      | error e => rw [hcf] at hp; simp at hp
      | ok fs2 =>
        rw [hcf] at hp
        dsimp only at hp
        simp only [GoRes.ok.injEq] at hp
        subst hp
        have hch := checkFiles_chained env src files off1 fs2 hcf
        refine ⟨rfl, ?_, ?_, ?_⟩
        · intro hne
          exact chained_head fs2 off1 hch hne
        · intro i h1 h2
          exact chained_get fs2 off1 hch i h1 h2
        · intro f hf
          obtain ⟨g, hg, h1, h2, h3, h4⟩ :=
            checkFiles_preserves env src files off1 fs2 hcf f hf
          rw [h1, h2, h3, h4]
          exact readEntries_dataLen env src m.EntitiesCount off0 files off1 he g hg

/-- Witness for C3 at the concrete two-entry archive `wSrc3`. -/
theorem NewReader_offsets_witness :
    NewReader idEnv wSrc3 106 = GoRes.ok wPhar3 ∧
    (checkFiles idEnv wSrc3 101 [wFileA, wFileB] = .ok wPhar3.Files
      ∧ (∀ hne : wPhar3.Files ≠ [], (wPhar3.Files.head hne).dataOffset = 101)
      ∧ (∀ (i : Nat) (h1 : i + 1 < wPhar3.Files.length) (h2 : i < wPhar3.Files.length),
          (wPhar3.Files.get ⟨i + 1, h1⟩).dataOffset =
            (wPhar3.Files.get ⟨i, h2⟩).dataOffset + ((wPhar3.Files.get ⟨i, h2⟩).dataLen : Int))
      ∧ (∀ f ∈ wPhar3.Files, f.dataLen =
          if f.Flags &&& CompressionMask > 0 then f.SizeCompressed
          else f.SizeUncompressed)) :=
  ⟨by decide, NewReader_offsets idEnv wSrc3 106 wMan3 43 [wFileA, wFileB] 101 wPhar3
    (by decide) (by decide) (by decide)⟩

end Phargo
